import Mathlib

/-!
Shallow embedding of the Solana DeFi fee-tracker dashboard (src/app.py) and
verification of its specification claims.

Modelling conventions:
* A pandas DataFrame is a `Table`: a list of column names and a list of rows,
  each row an association list from column name to `Value`.
* A cell is a `Value`: a string, a rational number (pandas numeric values,
  modelled exactly by `Rat`), or `null` (None/NaN).  A cell absent from a
  row's association list reads as `null` (dataframes are rectangular, so this
  corner does not arise for well-formed tables).
* A raised-and-caught pandas exception (e.g. comparing a string cell against a
  number, or `nlargest` on a non-numeric column) is modelled by an evaluator
  returning `none`; the enclosing `try/except Exception: pass` keeps the
  previous table.
* `df.empty` is true when the frame has no rows or no columns.
-/

inductive Value where
  | str (s : String)
  | num (q : Rat)
  | null
deriving DecidableEq

abbrev Row := List (String × Value)

/-- Read the cell of row `r` in column `c` (a dataframe row lookup). -/
def getCell (r : Row) (c : String) : Value :=
  match r.find? (fun p => p.1 == c) with
  | some p => p.2
  | none => Value.null

structure Table where
  cols : List String
  rows : List Row
deriving DecidableEq

/-- Pandas `DataFrame.empty`: any axis of length zero. -/
def Table.isEmpty (t : Table) : Bool :=
  t.rows.isEmpty || t.cols.isEmpty

def Value.isStrVal : Value → Bool
  | .str _ => true
  | _ => false

/-- Membership test used by `Series.isin(categories)`: a string cell matches a
listed category; numbers and NaN never match a list of strings. -/
def isinCats (v : Value) (cats : List String) : Bool :=
  match v with
  | .str s => cats.contains s
  | _ => false

/-- Pandas elementwise `col >= bound`: numbers compare, NaN compares false,
a string raises `TypeError` (modelled as `none`). -/
def cmpGe (v : Value) (bound : Rat) : Option Bool :=
  match v with
  | .num q => some (decide (bound ≤ q))
  | .null => some false
  | .str _ => none

/-- Pandas elementwise `col <= bound` (see `cmpGe`). -/
def cmpLe (v : Value) (bound : Rat) : Option Bool :=
  match v with
  | .num q => some (decide (q ≤ bound))
  | .null => some false
  | .str _ => none

/-- One row of `(df['TVL_USD'] >= min_val) & (df['TVL_USD'] <= max_val)`. -/
def rowInRange (r : Row) (lo hi : Rat) : Option Bool := do
  let a ← cmpGe (getCell r "TVL_USD") lo
  let b ← cmpLe (getCell r "TVL_USD") hi
  pure (a && b)

/-- Boolean-mask filtering for the TVL range; a `TypeError` anywhere in the
column aborts the whole vectorised comparison (`none`). -/
def rangeEval (rows : List Row) (lo hi : Rat) : Option (List Row) :=
  match rows with
  | [] => some []
  | r :: rs => do
    let b ← rowInRange r lo hi
    let rest ← rangeEval rs lo hi
    pure (if b then r :: rest else rest)

/-- The category block of `apply_filters` (src/app.py lines 232-237):
`if categories and 'Category' in filtered_df.columns: filtered_df =
filtered_df[filtered_df['Category'].isin(categories)]`.  `isin` cannot raise,
so this step is total.  An empty list models both `None` and `[]` (falsy). -/
def categoryStep (t : Table) (categories : List String) : Table :=
  if !categories.isEmpty && t.cols.contains "Category" then
    { t with rows := t.rows.filter (fun r => isinCats (getCell r "Category") categories) }
  else t

/-- The TVL-range block of `apply_filters` (src/app.py lines 239-248), with the
`try/except Exception: pass` keeping the incoming table on failure.  `none`
models the Python `tvl_range=None` default (falsy); a present pair is truthy. -/
def rangeStep (t : Table) (tvl_range : Option (Rat × Rat)) : Table :=
  match tvl_range with
  | none => t
  | some (lo, hi) =>
    if t.cols.contains "TVL_USD" then
      match rangeEval t.rows lo hi with
      | some rs => { t with rows := rs }
      | none => t
    else t

/-- The sidebar top-N selector value: the string "All" or an integer. -/
inductive TopN where
  | all
  | int (k : Int)
deriving DecidableEq

/-- Rows of the ranking column paired with their value and original position,
dropping NaN rows (as `nlargest` does). -/
def keyedRows (col : String) : Nat → List Row → List (Rat × Nat × Row)
  | _, [] => []
  | i, r :: rs =>
    match getCell r col with
    | Value.num q => (q, i, r) :: keyedRows col (i+1) rs
    | _ => keyedRows col (i+1) rs

/-- Ordering used by `nlargest(..., keep='first')`: larger values first, ties
by original position (stable / keep-first). -/
def tnLe (a b : Rat × Nat × Row) : Bool :=
  decide (b.1 < a.1) || (decide (a.1 = b.1) && decide (a.2.1 ≤ b.2.1))

def insertTN (x : Rat × Nat × Row) : List (Rat × Nat × Row) → List (Rat × Nat × Row)
  | [] => [x]
  | y :: ys => if tnLe x y then x :: y :: ys else y :: insertTN x ys

def sortTN : List (Rat × Nat × Row) → List (Rat × Nat × Row)
  | [] => []
  | x :: xs => insertTN x (sortTN xs)

/-- Pandas `DataFrame.nlargest(n, col)`: raises `TypeError` on a non-numeric
(object-dtype) column — modelled as `none` when any cell is a string — and
otherwise returns the rows sorted by descending column value, ties kept in
original order, NaN rows dropped, truncated to `n`. -/
def nlargestEval (rows : List Row) (col : String) (n : Nat) : Option (List Row) :=
  if rows.any (fun r => (getCell r col).isStrVal) then none
  else some (((sortTN (keyedRows col 0 rows)).take n).map (fun e => e.2.2))

/-- The top-N block of `apply_filters` (src/app.py lines 250-257):
`if top_n and top_n != "All" and 'TVL_USD' in filtered_df.columns: try:
n = int(top_n); if n > 0 and len(filtered_df) > 0: filtered_df =
filtered_df.nlargest(n, 'TVL_USD') except: pass`.  `none` models the `None`
default; the integer 0 is falsy in Python, hence the `k != 0` guard; `int()`
on an integer cannot raise. -/
def topNStep (t : Table) (top_n : Option TopN) : Table :=
  match top_n with
  | none => t
  | some TopN.all => t
  | some (TopN.int k) =>
    if (k != 0) && t.cols.contains "TVL_USD" then
      if decide (0 < k) && decide (0 < t.rows.length) then
        match nlargestEval t.rows "TVL_USD" k.toNat with
        | some rs => { t with rows := rs }
        | none => t
      else t
    else t

/-- `apply_filters(df, categories, tvl_range, top_n)` from src/app.py lines
225-259, translated block by block (the `df.copy()` is the identity in this
pure model; `df is None` is the `none` case). -/
def apply_filters (df : Option Table) (categories : List String)
    (tvl_range : Option (Rat × Rat)) (top_n : Option TopN) : Option Table :=
  match df with
  | none => none
  | some t =>
    if t.isEmpty then some t
    else
      let fd1 :=
        if !categories.isEmpty && t.cols.contains "Category" then
          { t with rows := t.rows.filter (fun r => isinCats (getCell r "Category") categories) }
        else t
      let fd2 :=
        match tvl_range with
        | none => fd1
        | some (lo, hi) =>
          if fd1.cols.contains "TVL_USD" then
            match rangeEval fd1.rows lo hi with
            | some rs => { fd1 with rows := rs }
            | none => fd1
          else fd1
      let fd3 :=
        match top_n with
        | none => fd2
        | some TopN.all => fd2
        | some (TopN.int k) =>
          if (k != 0) && fd2.cols.contains "TVL_USD" then
            if decide (0 < k) && decide (0 < fd2.rows.length) then
              match nlargestEval fd2.rows "TVL_USD" k.toNat with
              | some rs => { fd2 with rows := rs }
              | none => fd2
            else fd2
          else fd2
      some fd3

/-!  Currency formatting (src/app.py lines 88-98). -/

/-- Round `x / d` to the nearest integer, ties to even (the rounding Python's
fixed-point float formatting performs; all spec inputs are exactly
representable, so this agrees with `f-string` output on them). -/
def roundHalfEvenNat (x d : Nat) : Nat :=
  let q := x / d
  let r := x % d
  if 2 * r < d then q
  else if d < 2 * r then q + 1
  else if q % 2 = 0 then q else q + 1

def pad2 (n : Nat) : String :=
  if n < 10 then "0" ++ toString n else toString n

/-- Python `f"{a/d:.2f}"` for an integer `a` and positive divisor `d`. -/
def fmt2 (a : Int) (d : Nat) : String :=
  let c := roundHalfEvenNat (a.natAbs * 100) d
  (if a < 0 then "-" else "") ++ toString (c / 100) ++ "." ++ pad2 (c % 100)

/-- `format_currency(amount)` from src/app.py lines 88-98.  `none` models
`None`/NaN inputs (`amount is None or pd.isna(amount)`); integer amounts model
the numeric inputs exactly. -/
def format_currency (amount : Option Int) : String :=
  match amount with
  | none => "$0"
  | some a =>
    if a = 0 then "$0"
    else if 1000000000 ≤ a then "$" ++ fmt2 a 1000000000 ++ "B"
    else if 1000000 ≤ a then "$" ++ fmt2 a 1000000 ++ "M"
    else if 1000 ≤ a then "$" ++ fmt2 a 1000 ++ "K"
    else "$" ++ fmt2 a 1

/-!  Claims C1, C2, C4, C5, C10. -/

/-- C1: for every combination of category set, TVL range and top-N selection,
`apply_filters` applied to a `None` input or to an empty dataframe returns the
input unchanged, with no predicate applied. -/
theorem apply_filters_empty_input_unchanged
    (categories : List String) (tvl_range : Option (Rat × Rat)) (top_n : Option TopN) :
    apply_filters none categories tvl_range top_n = none ∧
    ∀ t : Table, t.isEmpty = true →
      apply_filters (some t) categories tvl_range top_n = some t := by
  refine ⟨rfl, fun t h => ?_⟩
  simp [apply_filters, h]

theorem apply_filters_empty_input_unchanged_witness :
    apply_filters none ["DEX"] (some (0, 10)) (some (TopN.int 5)) = none ∧
    (Table.isEmpty ⟨["Category"], []⟩ = true ∧
      apply_filters (some ⟨["Category"], []⟩) ["DEX"] (some (0, 10)) (some (TopN.int 5))
        = some ⟨["Category"], []⟩) :=
  ⟨(apply_filters_empty_input_unchanged ["DEX"] (some (0, 10)) (some (TopN.int 5))).1,
   by decide,
   (apply_filters_empty_input_unchanged ["DEX"] (some (0, 10)) (some (TopN.int 5))).2
     ⟨["Category"], []⟩ (by decide)⟩

/-- C2: on a non-empty table, `apply_filters` composes its three predicates by
conjunction in the fixed order category → range → top-N: the result is the
top-N selection applied to the range-filtered category-filtered table. -/
theorem apply_filters_composition_order
    (t : Table) (categories : List String) (tvl_range : Option (Rat × Rat))
    (top_n : Option TopN) (h : t.isEmpty = false) :
    apply_filters (some t) categories tvl_range top_n
      = some (topNStep (rangeStep (categoryStep t categories) tvl_range) top_n) := by
  simp only [apply_filters, h, Bool.false_eq_true, if_false, categoryStep, rangeStep, topNStep]

theorem apply_filters_composition_order_witness :
    Table.isEmpty ⟨["Category", "TVL_USD"], [[("Category", Value.str "DEX")]]⟩ = false ∧
    apply_filters (some ⟨["Category", "TVL_USD"], [[("Category", Value.str "DEX")]]⟩)
        ["DEX"] (some (0, 10)) (some (TopN.int 5))
      = some (topNStep (rangeStep
          (categoryStep ⟨["Category", "TVL_USD"], [[("Category", Value.str "DEX")]]⟩ ["DEX"])
          (some (0, 10))) (some (TopN.int 5))) :=
  ⟨by decide,
   apply_filters_composition_order ⟨["Category", "TVL_USD"], [[("Category", Value.str "DEX")]]⟩
     ["DEX"] (some (0, 10)) (some (TopN.int 5)) (by decide)⟩

/-- C4: the category filter of `apply_filters` is idempotent — filtering an
already-filtered table by the same category set returns the same rows. -/
theorem category_filter_idempotent (t : Table) (categories : List String) :
    categoryStep (categoryStep t categories) categories = categoryStep t categories := by
  unfold categoryStep
  by_cases h : (!categories.isEmpty && t.cols.contains "Category") = true
  · simp only [h, if_true, List.filter_filter]
    congr 1
    apply List.filter_congr
    intro r _
    cases isinCats (getCell r "Category") categories <;> rfl
  · rw [if_neg h, if_neg h]

/-- C5: `format_currency` buckets its input by magnitude with two decimal
places per bucket and returns "$0" for null/zero/missing inputs; in
particular 0 ↦ "$0", 1500 ↦ "$1.50K", 2500000 ↦ "$2.50M",
3000000000 ↦ "$3.00B", 999 ↦ "$999.00" and 1000 ↦ "$1.00K". -/
theorem format_currency_buckets :
    format_currency none = "$0" ∧
    format_currency (some 0) = "$0" ∧
    format_currency (some 1500) = "$1.50K" ∧
    format_currency (some 2500000) = "$2.50M" ∧
    format_currency (some 3000000000) = "$3.00B" ∧
    format_currency (some 999) = "$999.00" ∧
    format_currency (some 1000) = "$1.00K" := by
  refine ⟨rfl, ?_, ?_, ?_, ?_, ?_, ?_⟩ <;> decide

/-- C10: for every strictly negative amount, `format_currency` returns the raw
two-decimal rendering (the magnitude thresholds compare against the signed
value, so no B/M/K bucket applies); e.g. -2500000 renders as "$-2500000.00". -/
theorem format_currency_negative_raw :
    (∀ a : Int, a < 0 → format_currency (some a) = "$" ++ fmt2 a 1) ∧
    format_currency (some (-2500000)) = "$-2500000.00" := by
  constructor
  · intro a ha
    have h0 : ¬a = 0 := by omega
    have h9 : ¬(1000000000 : Int) ≤ a := by omega
    have h6 : ¬(1000000 : Int) ≤ a := by omega
    have h3 : ¬(1000 : Int) ≤ a := by omega
    simp [format_currency, h0, h9, h6, h3]
  · decide

theorem format_currency_negative_raw_witness :
    ((-7 : Int) < 0) ∧ format_currency (some (-7)) = "$" ++ fmt2 (-7) 1 :=
  ⟨by decide, format_currency_negative_raw.1 (-7) (by decide)⟩

/-!  Properties of the stable descending selection used by `nlargest`. -/

def TnLeP (a b : Rat × Nat × Row) : Prop := tnLe a b = true

theorem tnLe_unpack {a b : Rat × Nat × Row} (h : tnLe a b = true) :
    b.1 < a.1 ∨ (a.1 = b.1 ∧ a.2.1 ≤ b.2.1) := by
  unfold tnLe at h
  simp only [Bool.or_eq_true, Bool.and_eq_true, decide_eq_true_eq] at h
  exact h

theorem tnLe_total (a b : Rat × Nat × Row) : tnLe a b = true ∨ tnLe b a = true := by
  unfold tnLe
  rcases lt_trichotomy a.1 b.1 with h | h | h
  · right
    simp [h]
  · rcases Nat.le_total a.2.1 b.2.1 with hp | hp
    · left
      simp [h, hp]
    · right
      simp [h.symm, hp]
  · left
    simp [h]

theorem tnLe_trans {a b c : Rat × Nat × Row}
    (h1 : tnLe a b = true) (h2 : tnLe b c = true) : tnLe a c = true := by
  unfold tnLe at h1 h2 ⊢
  simp only [Bool.or_eq_true, Bool.and_eq_true, decide_eq_true_eq] at h1 h2 ⊢
  rcases h1 with h1 | ⟨h1e, h1p⟩ <;> rcases h2 with h2 | ⟨h2e, h2p⟩
  · exact Or.inl (h2.trans h1)
  · exact Or.inl (h2e ▸ h1)
  · exact Or.inl (h1e ▸ h2)
  · exact Or.inr ⟨h1e.trans h2e, h1p.trans h2p⟩

theorem insertTN_perm (x : Rat × Nat × Row) (l : List (Rat × Nat × Row)) :
    (insertTN x l).Perm (x :: l) := by
  induction l with
  | nil => exact List.Perm.refl _
  | cons y ys ih =>
    unfold insertTN
    by_cases h : tnLe x y = true
    · rw [if_pos h]
    · rw [if_neg h]
      exact (ih.cons y).trans (List.Perm.swap x y ys)

theorem insertTN_pairwise (x : Rat × Nat × Row) {l : List (Rat × Nat × Row)}
    (hl : l.Pairwise TnLeP) : (insertTN x l).Pairwise TnLeP := by
  induction l with
  | nil => simp [insertTN, List.pairwise_cons]
  | cons y ys ih =>
    have hl1 : ∀ b ∈ ys, TnLeP y b := (List.pairwise_cons.mp hl).1
    have hl2 : ys.Pairwise TnLeP := (List.pairwise_cons.mp hl).2
    unfold insertTN
    by_cases h : tnLe x y = true
    · rw [if_pos h]
      refine List.Pairwise.cons ?_ hl
      intro b hb
      rcases List.mem_cons.mp hb with rfl | hb2
      · exact h
      · exact tnLe_trans h (hl1 b hb2)
    · rw [if_neg h]
      have hyx : tnLe y x = true := (tnLe_total x y).resolve_left h
      refine List.Pairwise.cons ?_ (ih hl2)
      intro b hb
      rcases List.mem_cons.mp ((insertTN_perm x ys).mem_iff.mp hb) with rfl | hb2
      · exact hyx
      · exact hl1 b hb2

theorem sortTN_perm (l : List (Rat × Nat × Row)) : (sortTN l).Perm l := by
  induction l with
  | nil => exact List.Perm.refl _
  | cons x xs ih => exact (insertTN_perm x (sortTN xs)).trans (ih.cons x)

theorem sortTN_pairwise (l : List (Rat × Nat × Row)) : (sortTN l).Pairwise TnLeP := by
  induction l with
  | nil => exact List.Pairwise.nil
  | cons x xs ih => exact insertTN_pairwise x ih

theorem keyedRows_cell (col : String) (i : Nat) (rows : List Row) :
    ∀ e ∈ keyedRows col i rows,
      getCell e.2.2 col = Value.num e.1 ∧ e.2.2 ∈ rows ∧ i ≤ e.2.1 := by
  induction rows generalizing i with
  | nil => simp [keyedRows]
  | cons r rs ih =>
    intro e he
    cases hc : getCell r col with
    | num q =>
      simp only [keyedRows, hc] at he
      rcases List.mem_cons.mp he with rfl | he2
      · exact ⟨hc, List.mem_cons_self r rs, le_refl i⟩
      · obtain ⟨h1, h2, h3⟩ := ih (i+1) e he2
        exact ⟨h1, List.mem_cons_of_mem r h2, le_trans (Nat.le_succ i) h3⟩
    | str s =>
      simp only [keyedRows, hc] at he
      obtain ⟨h1, h2, h3⟩ := ih (i+1) e he
      exact ⟨h1, List.mem_cons_of_mem r h2, le_trans (Nat.le_succ i) h3⟩
    | null =>
      simp only [keyedRows, hc] at he
      obtain ⟨h1, h2, h3⟩ := ih (i+1) e he
      exact ⟨h1, List.mem_cons_of_mem r h2, le_trans (Nat.le_succ i) h3⟩

theorem keyedRows_pairwise_pos (col : String) (i : Nat) (rows : List Row) :
    (keyedRows col i rows).Pairwise (fun a b => a.2.1 < b.2.1) := by
  induction rows generalizing i with
  | nil => exact List.Pairwise.nil
  | cons r rs ih =>
    cases hc : getCell r col with
    | num q =>
      simp only [keyedRows, hc]
      refine List.Pairwise.cons ?_ (ih (i+1))
      intro b hb
      exact lt_of_lt_of_le (Nat.lt_succ_self i) (keyedRows_cell col (i+1) rs b hb).2.2
    | str s =>
      simp only [keyedRows, hc]
      exact ih (i+1)
    | null =>
      simp only [keyedRows, hc]
      exact ih (i+1)

theorem keyedRows_of_mem (col : String) {rows : List Row} {s : Row} {q : Rat}
    (hs : s ∈ rows) (hc : getCell s col = Value.num q) :
    ∀ i, ∃ j, (q, j, s) ∈ keyedRows col i rows := by
  induction rows with
  | nil => cases hs
  | cons r rs ih =>
    intro i
    rcases List.mem_cons.mp hs with rfl | hs2
    · exact ⟨i, by simp [keyedRows, hc]⟩
    · cases hcr : getCell r col with
      | num q0 =>
        obtain ⟨j, hj⟩ := ih hs2 (i+1)
        exact ⟨j, by simp only [keyedRows, hcr]; exact List.mem_cons_of_mem _ hj⟩
      | str s0 =>
        obtain ⟨j, hj⟩ := ih hs2 (i+1)
        exact ⟨j, by simp only [keyedRows, hcr]; exact hj⟩
      | null =>
        obtain ⟨j, hj⟩ := ih hs2 (i+1)
        exact ⟨j, by simp only [keyedRows, hcr]; exact hj⟩

theorem keyedRows_length_le (col : String) (i : Nat) (rows : List Row) :
    (keyedRows col i rows).length ≤ rows.length := by
  induction rows generalizing i with
  | nil => simp [keyedRows]
  | cons r rs ih =>
    cases hc : getCell r col with
    | num q => simp only [keyedRows, hc, List.length_cons]; exact Nat.succ_le_succ (ih (i+1))
    | str s => simp only [keyedRows, hc, List.length_cons]; exact le_trans (ih (i+1)) (Nat.le_succ _)
    | null => simp only [keyedRows, hc, List.length_cons]; exact le_trans (ih (i+1)) (Nat.le_succ _)

theorem value_num_beq (a b : Rat) : (Value.num a == Value.num b) = (a == b) := by
  by_cases h : a = b <;> simp [h]

theorem keyedRows_filter_map (col : String) (i : Nat) (rows : List Row) (q : Rat) :
    ((keyedRows col i rows).filter (fun e => e.1 == q)).map (fun e => e.2.2)
      = rows.filter (fun r => getCell r col == Value.num q) := by
  induction rows generalizing i with
  | nil => simp [keyedRows]
  | cons r rs ih =>
    cases hc : getCell r col with
    | num q0 =>
      by_cases hq : q0 = q
      · simp [keyedRows, hc, hq, List.filter_cons, value_num_beq, ih (i+1)]
      · simp [keyedRows, hc, List.filter_cons, value_num_beq, hq, ih (i+1)]
    | str s =>
      simp [keyedRows, hc, List.filter_cons, ih (i+1)]
    | null =>
      simp [keyedRows, hc, List.filter_cons, ih (i+1)]

theorem nlargest_length_le (rows : List Row) (col : String) (n : Nat) :
    (((sortTN (keyedRows col 0 rows)).take n).map (fun e => e.2.2)).length
      ≤ min n rows.length := by
  have h1 : (sortTN (keyedRows col 0 rows)).length = (keyedRows col 0 rows).length :=
    (sortTN_perm _).length_eq
  have h2 : (keyedRows col 0 rows).length ≤ rows.length := keyedRows_length_le col 0 rows
  simp only [List.length_map, List.length_take, h1]
  exact min_le_min (le_refl n) h2

theorem nlargest_mem_num (rows : List Row) (col : String) (n : Nat) :
    ∀ r ∈ ((sortTN (keyedRows col 0 rows)).take n).map (fun e => e.2.2),
      ∃ q : Rat, getCell r col = Value.num q := by
  intro r hr
  rcases List.mem_map.mp hr with ⟨e, he, hert⟩
  have heS : e ∈ sortTN (keyedRows col 0 rows) :=
    List.Sublist.mem he (List.take_sublist n _)
  have heK : e ∈ keyedRows col 0 rows := (sortTN_perm _).mem_iff.mp heS
  have hcell := (keyedRows_cell col 0 rows e heK).1
  have hert2 : e.2.2 = r := hert
  exact ⟨e.1, hert2 ▸ hcell⟩

theorem nlargest_domination (rows : List Row) (col : String) (n : Nat) :
    ∀ r ∈ ((sortTN (keyedRows col 0 rows)).take n).map (fun e => e.2.2),
    ∀ s ∈ rows, s ∉ ((sortTN (keyedRows col 0 rows)).take n).map (fun e => e.2.2) →
    ∀ qr qs : Rat, getCell r col = Value.num qr → getCell s col = Value.num qs →
      qs ≤ qr := by
  intro r hr s hs hsnot qr qs hcr hcs
  rcases List.mem_map.mp hr with ⟨er, herTake, hert⟩
  have herS : er ∈ sortTN (keyedRows col 0 rows) :=
    List.Sublist.mem herTake (List.take_sublist n _)
  have herK : er ∈ keyedRows col 0 rows := (sortTN_perm _).mem_iff.mp herS
  have hcell := (keyedRows_cell col 0 rows er herK).1
  have hert2 : er.2.2 = r := hert
  rw [hert2, hcr] at hcell
  have her1 : er.1 = qr := ((Value.num.injEq qr er.1).mp hcell).symm
  obtain ⟨j, hj⟩ := keyedRows_of_mem col hs hcs 0
  have hjS : (qs, j, s) ∈ sortTN (keyedRows col 0 rows) := (sortTN_perm _).mem_iff.mpr hj
  have hsplit : (qs, j, s) ∈ (sortTN (keyedRows col 0 rows)).take n
      ++ (sortTN (keyedRows col 0 rows)).drop n := by
    rw [List.take_append_drop]
    exact hjS
  rcases List.mem_append.mp hsplit with hin | hdrop
  · exact absurd (List.mem_map.mpr ⟨(qs, j, s), hin, rfl⟩) hsnot
  · have hpair : ((sortTN (keyedRows col 0 rows)).take n
        ++ (sortTN (keyedRows col 0 rows)).drop n).Pairwise TnLeP := by
      rw [List.take_append_drop]
      exact sortTN_pairwise _
    have hcross := (List.pairwise_append.mp hpair).2.2 er herTake (qs, j, s) hdrop
    rcases tnLe_unpack hcross with hlt | ⟨heq, _⟩
    · exact le_of_lt (her1 ▸ hlt)
    · exact le_of_eq (heq.symm.trans her1)

theorem nlargest_stable (rows : List Row) (col : String) (n : Nat) (q : Rat) :
    ∃ u, rows.filter (fun r => getCell r col == Value.num q)
      = (((sortTN (keyedRows col 0 rows)).take n).map (fun e => e.2.2)).filter
          (fun r => getCell r col == Value.num q) ++ u := by
  classical
  have hKpos : (keyedRows col 0 rows).Pairwise (fun a b => a.2.1 < b.2.1) :=
    keyedRows_pairwise_pos col 0 rows
  have hSperm : (sortTN (keyedRows col 0 rows)).Perm (keyedRows col 0 rows) := sortTN_perm _
  have hSpair : (sortTN (keyedRows col 0 rows)).Pairwise TnLeP := sortTN_pairwise _
  have hKne : (keyedRows col 0 rows).Pairwise (fun a b => a.2.1 ≠ b.2.1) :=
    hKpos.imp (fun h => Nat.ne_of_lt h)
  have hSne : (sortTN (keyedRows col 0 rows)).Pairwise (fun a b => a.2.1 ≠ b.2.1) :=
    (List.Perm.pairwise_iff (fun h => h.symm) hSperm).mpr hKne
  have hfilt_pos : ((sortTN (keyedRows col 0 rows)).filter (fun e => e.1 == q)).Pairwise
      (fun a b => a.2.1 < b.2.1) := by
    refine ((hSpair.filter _).and (hSne.filter _)).imp_of_mem ?_
    intro a b ha hb hab
    have haq : a.1 = q := by simpa using (List.mem_filter.mp ha).2
    have hbq : b.1 = q := by simpa using (List.mem_filter.mp hb).2
    rcases tnLe_unpack hab.1 with hlt | ⟨_, hle⟩
    · rw [haq, hbq] at hlt
      exact absurd hlt (lt_irrefl q)
    · exact lt_of_le_of_ne hle hab.2
  have hKfilt_pos : ((keyedRows col 0 rows).filter (fun e => e.1 == q)).Pairwise
      (fun a b => a.2.1 < b.2.1) := hKpos.filter _
  haveI : IsAntisymm (Rat × Nat × Row) (fun a b => a.2.1 < b.2.1) :=
    ⟨fun a b h1 h2 => absurd (h1.trans h2) (lt_irrefl _)⟩
  have hfeq : (sortTN (keyedRows col 0 rows)).filter (fun e => e.1 == q)
      = (keyedRows col 0 rows).filter (fun e => e.1 == q) :=
    List.eq_of_perm_of_sorted (hSperm.filter _) hfilt_pos hKfilt_pos
  refine ⟨(((sortTN (keyedRows col 0 rows)).drop n).filter (fun e => e.1 == q)).map
    (fun e => e.2.2), ?_⟩
  have hresf : (((sortTN (keyedRows col 0 rows)).take n).map (fun e => e.2.2)).filter
      (fun r => getCell r col == Value.num q)
      = (((sortTN (keyedRows col 0 rows)).take n).filter (fun e => e.1 == q)).map
          (fun e => e.2.2) := by
    rw [List.filter_map]
    congr 1
    apply List.filter_congr
    intro e he
    have heK : e ∈ keyedRows col 0 rows :=
      hSperm.mem_iff.mp (List.Sublist.mem he (List.take_sublist n _))
    have hc := (keyedRows_cell col 0 rows e heK).1
    show (getCell e.2.2 col == Value.num q) = (e.1 == q)
    rw [hc, value_num_beq]
  rw [hresf, ← keyedRows_filter_map col 0 rows q, ← hfeq]
  rw [show (sortTN (keyedRows col 0 rows)).filter (fun e => e.1 == q)
      = ((sortTN (keyedRows col 0 rows)).take n).filter (fun e => e.1 == q)
        ++ ((sortTN (keyedRows col 0 rows)).drop n).filter (fun e => e.1 == q) from by
    rw [← List.filter_append, List.take_append_drop]]
  rw [List.map_append]

/-- C3 counterexample: with the ranking column present but string-valued,
`nlargest` raises, the top-N predicate is skipped, and the step returns more
than min(N, number of rows) rows — the claim as stated fails on this input. -/
theorem topN_min_bound_fails_on_nonnumeric_column :
    Table.isEmpty ⟨["TVL_USD"], [[("TVL_USD", Value.str "a")], [("TVL_USD", Value.str "b")]]⟩
      = false ∧
    (Table.cols ⟨["TVL_USD"], [[("TVL_USD", Value.str "a")], [("TVL_USD", Value.str "b")]]⟩).contains
      "TVL_USD" = true ∧
    ¬ ((topNStep ⟨["TVL_USD"], [[("TVL_USD", Value.str "a")], [("TVL_USD", Value.str "b")]]⟩
          (some (TopN.int 1))).rows.length
        ≤ min (Int.toNat 1)
            (Table.rows ⟨["TVL_USD"], [[("TVL_USD", Value.str "a")], [("TVL_USD", Value.str "b")]]⟩).length) := by
  decide

/-- C3 (amended): for every non-empty table with the ranking column present
and containing no non-numeric (string) values, and every numeric N > 0, the
top-N step of `apply_filters` returns at most min(N, |T|) rows, every returned
row has a numeric ranking value at least the value of every excluded row with
a numeric value, ties are broken by original row order (keep-first: for each
value, the returned rows with that value are an initial segment, in order, of
the input rows with that value), and choosing "All" leaves the table
unchanged.  (When the ranking column contains string values the step is
skipped by the exception handler and the table passes through unchanged,
which is what the counterexample exhibits.) -/
theorem topN_bound_domination_stability :
    (∀ t : Table, topNStep t (some TopN.all) = t) ∧
    (∀ (t : Table) (k : Int),
      t.isEmpty = false →
      t.cols.contains "TVL_USD" = true →
      t.rows.any (fun r => (getCell r "TVL_USD").isStrVal) = false →
      0 < k →
      ((topNStep t (some (TopN.int k))).rows.length ≤ min k.toNat t.rows.length ∧
       (∀ r ∈ (topNStep t (some (TopN.int k))).rows,
          ∃ q : Rat, getCell r "TVL_USD" = Value.num q) ∧
       (∀ r ∈ (topNStep t (some (TopN.int k))).rows, ∀ s ∈ t.rows,
          s ∉ (topNStep t (some (TopN.int k))).rows → ∀ qr qs : Rat,
          getCell r "TVL_USD" = Value.num qr → getCell s "TVL_USD" = Value.num qs →
          qs ≤ qr) ∧
       (∀ q : Rat, ∃ u, t.rows.filter (fun r => getCell r "TVL_USD" == Value.num q)
          = (topNStep t (some (TopN.int k))).rows.filter
              (fun r => getCell r "TVL_USD" == Value.num q) ++ u))) := by
  constructor
  · intro t
    rfl
  · intro t k hne hcol hstr hk
    have hrows : t.rows.isEmpty = false := by
      unfold Table.isEmpty at hne
      exact (Bool.or_eq_false_iff.mp hne).1
    have hlen : 0 < t.rows.length := by
      cases h : t.rows with
      | nil => rw [h] at hrows; simp [List.isEmpty] at hrows
      | cons a as => simp [h]
    have g1 : ((k != 0) && t.cols.contains "TVL_USD") = true := by
      rw [hcol, Bool.and_true, bne_iff_ne]
      omega
    have g2 : (decide (0 < k) && decide (0 < t.rows.length)) = true := by
      simp [hk, hlen]
    have hstep : topNStep t (some (TopN.int k)) = { t with rows := ((sortTN (keyedRows "TVL_USD" 0 t.rows)).take k.toNat).map (fun e => e.2.2) } := by
      simp only [topNStep, nlargestEval]
      rw [g1, if_pos rfl, g2, if_pos rfl, hstr, if_neg Bool.false_ne_true]
    rw [hstep]
    exact ⟨nlargest_length_le t.rows "TVL_USD" k.toNat,
      nlargest_mem_num t.rows "TVL_USD" k.toNat,
      nlargest_domination t.rows "TVL_USD" k.toNat,
      fun q => nlargest_stable t.rows "TVL_USD" k.toNat q⟩

def sampleTopNTable : Table :=
  ⟨["TVL_USD"],
   [[("TVL_USD", Value.num 5)], [("TVL_USD", Value.num 7)], [("TVL_USD", Value.null)]]⟩

theorem topN_bound_domination_stability_witness :
    Table.isEmpty sampleTopNTable = false ∧
    (topNStep sampleTopNTable (some (TopN.int 2))).rows.length
      ≤ min (Int.toNat 2) sampleTopNTable.rows.length :=
  ⟨by decide,
   (topN_bound_domination_stability.2 sampleTopNTable 2
      (by decide) (by decide) (by decide) (by decide)).1⟩

/-!  Helper lemmas for the exception-swallowing behaviour of `apply_filters`. -/

theorem apply_filters_eq_steps (t : Table) (categories : List String)
    (tvl_range : Option (Rat × Rat)) (top_n : Option TopN) (h : t.isEmpty = false) :
    apply_filters (some t) categories tvl_range top_n
      = some (topNStep (rangeStep (categoryStep t categories) tvl_range) top_n) := by
  simp only [apply_filters, h, Bool.false_eq_true, if_false, categoryStep, rangeStep, topNStep]

theorem rangeStep_fail (t : Table) (lo hi : Rat)
    (h : rangeEval t.rows lo hi = none) : rangeStep t (some (lo, hi)) = t := by
  simp only [rangeStep]
  by_cases hc : t.cols.contains "TVL_USD" = true
  · rw [if_pos hc, h]
  · rw [if_neg hc]

theorem topNStep_fail (t : Table) (k : Int)
    (h : nlargestEval t.rows "TVL_USD" k.toNat = none) :
    topNStep t (some (TopN.int k)) = t := by
  simp only [topNStep]
  by_cases h1 : ((k != 0) && t.cols.contains "TVL_USD") = true
  · rw [if_pos h1]
    by_cases h2 : (decide (0 < k) && decide (0 < t.rows.length)) = true
    · rw [if_pos h2, h]
    · rw [if_neg h2]
  · rw [if_neg h1]

/-- C6: `apply_filters` never raises to its caller — it returns a table
whenever it is given one — and a failure while evaluating one predicate
(modelled by the evaluator returning `none`) is swallowed: that predicate is
skipped and the remaining predicates are still applied to the rows that
survived the predicates evaluated so far. -/
theorem apply_filters_swallows_predicate_failures :
    (∀ (df : Option Table) (categories : List String)
        (tvl_range : Option (Rat × Rat)) (top_n : Option TopN),
        (apply_filters df categories tvl_range top_n).isSome = df.isSome) ∧
    (∀ (t : Table) (categories : List String) (lo hi : Rat) (top_n : Option TopN),
        t.isEmpty = false →
        rangeEval (categoryStep t categories).rows lo hi = none →
        apply_filters (some t) categories (some (lo, hi)) top_n
          = some (topNStep (categoryStep t categories) top_n)) ∧
    (∀ (t : Table) (categories : List String) (tvl_range : Option (Rat × Rat)) (k : Int),
        t.isEmpty = false →
        nlargestEval (rangeStep (categoryStep t categories) tvl_range).rows
            "TVL_USD" k.toNat = none →
        apply_filters (some t) categories tvl_range (some (TopN.int k))
          = some (rangeStep (categoryStep t categories) tvl_range)) := by
  refine ⟨?_, ?_, ?_⟩
  · intro df categories tvl_range top_n
    cases df with
    | none => rfl
    | some t =>
      by_cases h : t.isEmpty = true
      · simp [apply_filters, h]
      · rw [apply_filters_eq_steps t categories tvl_range top_n (Bool.not_eq_true _ ▸ h)]
        rfl
  · intro t categories lo hi top_n h hfail
    rw [apply_filters_eq_steps t categories (some (lo, hi)) top_n h,
      rangeStep_fail _ _ _ hfail]
  · intro t categories tvl_range k h hfail
    rw [apply_filters_eq_steps t categories tvl_range (some (TopN.int k)) h,
      topNStep_fail _ _ hfail]

def sampleFailTable : Table :=
  ⟨["Category", "TVL_USD"], [[("Category", Value.str "DEX"), ("TVL_USD", Value.str "oops")]]⟩

theorem apply_filters_swallows_predicate_failures_witness :
    (apply_filters (some sampleFailTable) [] (some (0, 10)) (some (TopN.int 1))).isSome
      = (some sampleFailTable).isSome ∧
    apply_filters (some sampleFailTable) [] (some (0, 10)) (some (TopN.int 1))
      = some (topNStep (categoryStep sampleFailTable []) (some (TopN.int 1))) :=
  ⟨apply_filters_swallows_predicate_failures.1 (some sampleFailTable) [] (some (0, 10))
      (some (TopN.int 1)),
   apply_filters_swallows_predicate_failures.2.1 sampleFailTable [] 0 10 (some (TopN.int 1))
      (by decide) (by decide)⟩

/-!
Dataset loading (src/app.py lines 135-183).

A serialized object (joblib payload) is a `PyObj`; a file on disk either
deserializes to a metadata record (`metaContent`, the mapping shape written by
the upstream notebooks: a `last_updated` timestamp and a `data_files` mapping
of logical dataset names to filenames), to a data object (`objContent`), or
fails to deserialize (`corrupt`).  A file system is a partial map from paths
to file contents; `none` is a missing file (`os.path.exists` false).
`st.error`/`st.warning` are collected as `Msg` values; `st.stop()` after the
metadata errors is the `Except.error` exit, which carries no datasets — no
table is loaded on that path.
-/

inductive PyObj where
  | table (t : Table)
  | dict (entries : List (String × PyObj))
  | strv (s : String)
  | timev (n : Nat)

inductive FileContent where
  | metaContent (lastUpdated : Option Nat) (dataFiles : List (String × String))
  | objContent (o : PyObj)
  | corrupt

inductive Msg where
  | error (text : String)
  | warning (text : String)
deriving DecidableEq

structure LoadOutcome where
  lastUpdated : Option Nat
  messages : List Msg
  datasets : List (String × PyObj)

def data_dir : String := "data/streamlit"

def metadata_file : String := data_dir ++ "/latest_data_metadata.joblib"

def lastUpdatedWarning : String :=
  "Warning: 'last_updated' key not found in metadata. Using current time as fallback."

/-- The fallback stored for a dataset that is missing or fails to load:
`pd.DataFrame() if key not in ['financial_rankings', 'raw_token_holders']
else {}` (src/app.py lines 170 and 173). -/
def fallback_for (key : String) : PyObj :=
  if key = "financial_rankings" ∨ key = "raw_token_holders" then PyObj.dict []
  else PyObj.table ⟨[], []⟩

/-- Load one dataset named in the metadata (one iteration of the loop at
src/app.py lines 162-173).  A dataset file holding a metadata-shaped mapping
deserializes to the corresponding dict object.  The Python error message also
interpolates `str(e)`, which has no content in this model. -/
def load_one (fs : String → Option FileContent) (key filename : String) :
    List Msg × PyObj :=
  match fs (data_dir ++ "/" ++ filename) with
  | some (FileContent.objContent o) => ([], o)
  | some (FileContent.metaContent lu dfs) =>
      ([], PyObj.dict ((match lu with
          | some n => [("last_updated", PyObj.timev n)]
          | none => [])
        ++ [("data_files", PyObj.dict (dfs.map (fun p => (p.1, PyObj.strv p.2))))]))
  | some FileContent.corrupt =>
      ([Msg.error ("Failed to load dataset " ++ key)], fallback_for key)
  | none =>
      ([Msg.warning ("Dataset file " ++ filename ++ " not found.")], fallback_for key)

/-- The dataset loop `for key, filename in data_files.items()` of src/app.py
lines 162-173, preserving iteration order. -/
def load_datasets (fs : String → Option FileContent) :
    List (String × String) → List Msg × List (String × PyObj)
  | [] => ([], [])
  | (key, filename) :: rest =>
    let first := load_one fs key filename
    let others := load_datasets fs rest
    (first.1 ++ others.1, (key, first.2) :: others.2)

/-- The load sequence of src/app.py lines 139-183: missing metadata file →
`st.error` + `st.stop` (fatal); metadata deserialization failure → `st.error`
+ `st.stop` (fatal); otherwise warn if `last_updated` is absent and load every
dataset named in `data_files`.  A metadata file that deserializes to a
non-mapping object follows the `dict.get`-style defaulting of the code
(`metadata.get('last_updated', None)`, `metadata.get('data_files', {})`). -/
def loadDashboard (fs : String → Option FileContent) : Except Msg LoadOutcome :=
  match fs metadata_file with
  | none => Except.error (Msg.error
      "Metadata file not found. Please run the data collection and analysis notebooks first.")
  | some FileContent.corrupt => Except.error (Msg.error "Failed to load metadata file")
  | some (FileContent.objContent _) =>
      let loaded := load_datasets fs []
      Except.ok ⟨none, Msg.warning lastUpdatedWarning :: loaded.1, loaded.2⟩
  | some (FileContent.metaContent lu dfs) =>
      let luMsgs := match lu with
        | none => [Msg.warning lastUpdatedWarning]
        | some _ => []
      let loaded := load_datasets fs dfs
      Except.ok ⟨lu, luMsgs ++ loaded.1, loaded.2⟩

/-- C7: if the metadata file is absent, or its deserialization fails,
rendering halts with a user-visible error before any dataset is loaded (the
error exit carries no datasets), and this is the only dataset whose absence is
fatal: whenever the metadata record itself loads, the loader succeeds no
matter which other files are missing or corrupt. -/
theorem metadata_absence_fatal :
    (∀ fs : String → Option FileContent, fs metadata_file = none →
      loadDashboard fs = Except.error (Msg.error
        "Metadata file not found. Please run the data collection and analysis notebooks first.")) ∧
    (∀ fs : String → Option FileContent, fs metadata_file = some FileContent.corrupt →
      loadDashboard fs = Except.error (Msg.error "Failed to load metadata file")) ∧
    (∀ (fs : String → Option FileContent) (lu : Option Nat) (dfs : List (String × String)),
      fs metadata_file = some (FileContent.metaContent lu dfs) →
      ∃ out : LoadOutcome, loadDashboard fs = Except.ok out) := by
  refine ⟨?_, ?_, ?_⟩
  · intro fs h
    simp only [loadDashboard, h]
  · intro fs h
    simp only [loadDashboard, h]
  · intro fs lu dfs h
    have hok : loadDashboard fs = Except.ok
        ⟨lu, (match lu with
              | none => [Msg.warning lastUpdatedWarning]
              | some _ => []) ++ (load_datasets fs dfs).1,
          (load_datasets fs dfs).2⟩ := by
      simp only [loadDashboard, h]
      cases lu <;> rfl
    exact ⟨_, hok⟩

theorem metadata_absence_fatal_witness :
    ((fun _ => none : String → Option FileContent) metadata_file = none) ∧
    loadDashboard (fun _ => none) = Except.error (Msg.error
      "Metadata file not found. Please run the data collection and analysis notebooks first.") :=
  ⟨rfl, metadata_absence_fatal.1 (fun _ => none) rfl⟩

theorem load_datasets_mem (fs : String → Option FileContent)
    (dfs : List (String × String)) (key filename : String)
    (hmem : (key, filename) ∈ dfs) :
    (key, (load_one fs key filename).2) ∈ (load_datasets fs dfs).2 ∧
    ∀ m ∈ (load_one fs key filename).1, m ∈ (load_datasets fs dfs).1 := by
  induction dfs with
  | nil => cases hmem
  | cons p rest ih =>
    rcases List.mem_cons.mp hmem with heq | hmem2
    · subst heq
      exact ⟨List.mem_cons_self _ _, fun m hm => List.mem_append_left _ hm⟩
    · obtain ⟨hd, hm⟩ := ih hmem2
      exact ⟨List.mem_cons_of_mem _ hd, fun m hmm => List.mem_append_right _ (hm m hmm)⟩

/-- File system used to refute C8: metadata names two datasets, the
`summary_stats` file is absent and the `tab1_overview` file is corrupt. -/
def fs0Counter : String → Option FileContent := fun p =>
  if p = metadata_file then
    some (FileContent.metaContent (some 0)
      [("summary_stats", "ss.joblib"), ("tab1_overview", "ov.joblib")])
  else if p = data_dir ++ "/ov.joblib" then some FileContent.corrupt
  else none

/-- C8 counterexample: with metadata present and the `summary_stats` file
missing, the loader substitutes an empty *table* for `summary_stats` (it is
not in the code's dict-typed list `['financial_rankings',
'raw_token_holders']`), not an empty mapping as the claim states; and a
dataset that fails to deserialize surfaces an error notice, not a warning. -/
theorem summary_stats_fallback_is_table_not_dict :
    loadDashboard fs0Counter = Except.ok
      ⟨some 0,
       [Msg.warning "Dataset file ss.joblib not found.",
        Msg.error "Failed to load dataset tab1_overview"],
       [("summary_stats", PyObj.table ⟨[], []⟩),
        ("tab1_overview", PyObj.table ⟨[], []⟩)]⟩ ∧
    PyObj.table ⟨[], []⟩ ≠ PyObj.dict [] ∧
    Msg.error "Failed to load dataset tab1_overview"
      ≠ Msg.warning "Failed to load dataset tab1_overview" :=
  ⟨rfl, fun h => PyObj.noConfusion h, by decide⟩

/-- C8 (amended): when the metadata is present but an individual dataset file
named in it is missing or fails to deserialize, the loader substitutes an
empty mapping for `financial_rankings` and `raw_token_holders` and an empty
table for every other dataset — including the dict-typed `summary_stats` —
surfaces a non-fatal message (a warning for a missing file, an error notice
for a deserialization failure), and rendering continues (the loader still
returns successfully). -/
theorem dataset_fallback_amended :
    ∀ (fs : String → Option FileContent) (lu : Option Nat)
      (dfs : List (String × String)) (key filename : String),
      fs metadata_file = some (FileContent.metaContent lu dfs) →
      (key, filename) ∈ dfs →
      ((fs (data_dir ++ "/" ++ filename) = none →
        ∃ out : LoadOutcome, loadDashboard fs = Except.ok out ∧
          (key, fallback_for key) ∈ out.datasets ∧
          Msg.warning ("Dataset file " ++ filename ++ " not found.") ∈ out.messages) ∧
       (fs (data_dir ++ "/" ++ filename) = some FileContent.corrupt →
        ∃ out : LoadOutcome, loadDashboard fs = Except.ok out ∧
          (key, fallback_for key) ∈ out.datasets ∧
          Msg.error ("Failed to load dataset " ++ key) ∈ out.messages)) := by
  intro fs lu dfs key filename hmeta hmem
  have hok : loadDashboard fs = Except.ok
      ⟨lu, (match lu with
            | none => [Msg.warning lastUpdatedWarning]
            | some _ => []) ++ (load_datasets fs dfs).1,
        (load_datasets fs dfs).2⟩ := by
    simp only [loadDashboard, hmeta]
    cases lu <;> rfl
  constructor
  · intro hfile
    have h1 : load_one fs key filename
        = ([Msg.warning ("Dataset file " ++ filename ++ " not found.")], fallback_for key) := by
      simp only [load_one, hfile]
    obtain ⟨hd, hm⟩ := load_datasets_mem fs dfs key filename hmem
    rw [h1] at hd hm
    refine ⟨_, hok, hd, ?_⟩
    exact List.mem_append_right _ (hm _ (List.mem_cons_self _ _))
  · intro hfile
    have h1 : load_one fs key filename
        = ([Msg.error ("Failed to load dataset " ++ key)], fallback_for key) := by
      simp only [load_one, hfile]
    obtain ⟨hd, hm⟩ := load_datasets_mem fs dfs key filename hmem
    rw [h1] at hd hm
    refine ⟨_, hok, hd, ?_⟩
    exact List.mem_append_right _ (hm _ (List.mem_cons_self _ _))

theorem dataset_fallback_amended_witness :
    ∃ out : LoadOutcome, loadDashboard fs0Counter = Except.ok out ∧
      ("summary_stats", fallback_for "summary_stats") ∈ out.datasets ∧
      Msg.warning ("Dataset file " ++ "ss.joblib" ++ " not found.") ∈ out.messages :=
  (dataset_fallback_amended fs0Counter (some 0)
      [("summary_stats", "ss.joblib"), ("tab1_overview", "ov.joblib")]
      "summary_stats" "ss.joblib" rfl (List.mem_cons_self _ _)).1 rfl

/-!
KPI cards (src/app.py lines 301-334 for the Overview tab and 595-618 for the
Metrics tab).  `summary_stats` is a nested mapping section-name → (kpi-name →
scalar); card values are modelled at the `Value` level, i.e. before the final
`str`/`format_currency`/f-string display step, which is applied uniformly to
whichever value was selected.

The card computations sit outside any `try/except`, so a pandas call that
raises — `df[c]` on an absent column (`KeyError`), `groupby('Category')` with
the column absent (`KeyError`), or `idxmax()` on an empty groupby result,
i.e. every category null (`ValueError`) — crashes the render.  Fallible card
computations therefore return an `Option` (`none` = uncaught exception) and a
KPI block renders to a `KpiBlock`: `skipped` when its guard is false, `crash`
when a card computation raises, `shown` with the card values otherwise.
-/

